import Mathlib

/-!
Shallow embedding of `gallery_dl/extractor/bluesky.py`: the Bluesky API
client (pagination, rate-limit retry, fatal API errors, identity
resolution, session authentication) and the post-normalization logic of
`BlueskyExtractor.items` (facets, media records, date parsing).

HTTP traffic is modelled by an explicit list of responses: the sequence
the server would return for the successive requests the client issues.
Raised Python exceptions are modelled by explicit error results.
-/

namespace Bluesky

/-- Model of a Python string method: `s.startswith(pre)`. -/
def pyStartsWith (s pre : String) : Bool :=
  pre.data.isPrefixOf s.data

/-- Characters of `s` after the last occurrence of `sep`; the whole string
when `sep` does not occur.  This is `s.rpartition(sep)[2]` in Python. -/
def afterLastAux (sep : Char) : List Char → List Char
  | [] => []
  | c :: rest =>
    if rest.contains sep then afterLastAux sep rest
    else if c = sep then rest
    else c :: rest

/-- Model of `s.rpartition(sep)[2]` for a single-character separator. -/
def rpartAfter (sep : Char) (s : String) : String :=
  String.mk (afterLastAux sep s.data)

/-- Query parameters / headers: a Python dict with string keys and values. -/
def Params : Type := List (String × String)

/-- Dict lookup `d.get(k)`: `none` when the key is absent. -/
def lookupKey {β : Type} : List (String × β) → String → Option β
  | [], _ => none
  | (k, v) :: rest, key => if k = key then some v else lookupKey rest key

/-- Dict assignment `d[k] = v`: overwrite the existing entry or append. -/
def setParam : Params → String → String → Params
  | [], k, v => [(k, v)]
  | (k', v') :: rest, k, v =>
    if k' = k then (k, v) :: rest else (k', v') :: setParam rest k v

/-- Parsed JSON body of an API response, as used by `_pagination`: the
array-valued fields (`data[key]`) and the optional `cursor` field. -/
structure Body (α : Type) where
  arrays : List (String × List α)
  cursor : Option String
deriving DecidableEq

/-- HTTP response, as inspected by `BlueskyAPI._call`. -/
structure Response (α : Type) where
  status_code : Nat
  reason : String
  body : Body α
deriving DecidableEq

/-- Result of one `_call`: the parsed body on success, or the raised
`exception.StopExtraction` carrying the status code and reason. -/
inductive CallResult (α : Type) where
  | ok (body : Body α)
  | stop (status : Nat) (reason : String)
deriving DecidableEq

/-- Observable outcome of `_call`: its result, the unconsumed responses,
the number of HTTP requests issued, and the total seconds slept. -/
structure CallOutcome (α : Type) where
  result : CallResult α
  rest : List (Response α)
  attempts : Nat
  slept : Nat
deriving DecidableEq

/-- Embeds the retry loop of `BlueskyAPI._call`: status `< 400` returns
the parsed body; status `429` sleeps 60 seconds and retries the same
request; any other status raises `StopExtraction`.  `none` means the
response stream ran out while still retrying (the loop has no retry cap). -/
def runCall {α : Type} : List (Response α) → Option (CallOutcome α)
  | [] => none
  | r :: rs =>
    if r.status_code < 400 then some ⟨.ok r.body, rs, 1, 0⟩
    else if r.status_code = 429 then
      match runCall rs with
      | none => none
      | some o => some ⟨o.result, o.rest, o.attempts + 1, o.slept + 60⟩
    else some ⟨.stop r.status_code r.reason, rs, 1, 0⟩

/-- Termination state of a `_pagination` run. -/
inductive PagOutcome where
  | finished
  | stopped (status : Nat) (reason : String)
  | keyError
  | exhausted
deriving DecidableEq

/-- Observable trace of a `_pagination` run: items yielded in order,
pages successfully fetched, HTTP requests issued, the params of each
`_call`, and how the run ended. -/
structure PagResult (α : Type) where
  yielded : List α
  pages : Nat
  requests : Nat
  trace : List Params
  outcome : PagOutcome

/-- Default value of the `key` parameter of `BlueskyAPI._pagination`. -/
def defaultItemsKey : String := "feed"

/-- Embeds `BlueskyAPI._pagination`: call, yield every element of
`data[key]` in order, read `data.get("cursor")`; stop when it is absent
or empty, otherwise set `params["cursor"]` and loop.  `fuel` bounds the
number of iterations observed; each iteration consumes at least one
response, so `fuel = rs.length` never cuts a run short. -/
def runPagination {α : Type} : Nat → Params → String → List (Response α) → PagResult α
  | 0, _, _, _ => ⟨[], 0, 0, [], .exhausted⟩
  | fuel + 1, params, key, rs =>
    match runCall rs with
    | none => ⟨[], 0, rs.length, [params], .exhausted⟩
    | some o =>
      match o.result with
      | .stop s reason => ⟨[], 0, o.attempts, [params], .stopped s reason⟩
      | .ok body =>
        match lookupKey body.arrays key with
        | none => ⟨[], 0, o.attempts, [params], .keyError⟩
        | some items =>
          match body.cursor with
          | none => ⟨items, 1, o.attempts, [params], .finished⟩
          | some c =>
            if c = "" then ⟨items, 1, o.attempts, [params], .finished⟩
            else
              let rest := runPagination fuel (setParam params "cursor" c) key o.rest
              ⟨items ++ rest.yielded, rest.pages + 1, o.attempts + rest.requests,
               params :: rest.trace, rest.outcome⟩

/-- Server-side description of one successful page, used to build
response sequences: the items under the requested key and the cursor. -/
structure Page (α : Type) where
  items : List α
  cursor : Option String
deriving DecidableEq

/-- Successful (status 200) response delivering `p.items` under `key`. -/
def okResp {α : Type} (key : String) (p : Page α) : Response α :=
  { status_code := 200, reason := "OK",
    body := { arrays := [(key, p.items)], cursor := p.cursor } }

/-- Truthiness test of the cursor value: Python `not cursor` is true for
an absent cursor and for the empty string. -/
def cursorDone : Option String → Bool
  | none => true
  | some c => c = ""

/-- Well-formed page chain: every page except the last carries a truthy
cursor, and the last page's cursor is absent or empty. -/
def chainOK {α : Type} : List (Page α) → Bool
  | [] => false
  | [p] => cursorDone p.cursor
  | p :: q :: rest => !cursorDone p.cursor && chainOK (q :: rest)

/-- Modelled from the spec: the `memcache` decorator of `gallery_dl.cache`
is not under `src/`; per the spec it memoizes `resolve_handle` per process,
keyed by the handle argument.  The state is the memo table plus a counter
of network calls issued so far. -/
structure ResolveState where
  memo : List (String × String)
  calls : Nat
deriving DecidableEq

/-- Embeds `BlueskyAPI.resolve_handle` under its `memcache` decorator: on
a memo hit return the cached durable id with no network call; on a miss
call the `com.atproto.identity.resolveHandle` endpoint (modelled by the
`oracle`), record the mapping, and count one network call. -/
def resolve_handle (oracle : String → String) (st : ResolveState) (handle : String) :
    String × ResolveState :=
  match lookupKey st.memo handle with
  | some d => (d, st)
  | none => (oracle handle, ⟨(handle, oracle handle) :: st.memo, st.calls + 1⟩)

/-- Embeds `BlueskyAPI._did_from_actor`: an actor that already starts
with `did:` is returned unchanged with no resolution; anything else goes
through the memoized `resolve_handle`. -/
def did_from_actor (oracle : String → String) (st : ResolveState) (actor : String) :
    String × ResolveState :=
  if pyStartsWith actor "did:" then (actor, st)
  else resolve_handle oracle st actor

/-- Runs `did_from_actor` on each actor in turn, threading the memo
state and collecting the returned durable ids in order. -/
def resolveMany (oracle : String → String) (st : ResolveState) :
    List String → List String × ResolveState
  | [] => ([], st)
  | a :: rest =>
    let (d, st') := did_from_actor oracle st a
    let (ds, st'') := resolveMany oracle st' rest
    (d :: ds, st'')

/-- Response of the createSession / refreshSession endpoint, with the
fields `_authenticate_impl` reads: the status code, the error code and
message used on failure, and the two tokens used on success. -/
structure AuthResponse where
  status_code : Nat
  error : Option String
  message : Option String
  refreshJwt : String
  accessJwt : String
deriving DecidableEq

/-- Request issued by `_authenticate_impl`: the full URL, the value of
the Authorization header if one is sent, and the JSON body if one is sent. -/
structure AuthRequest where
  url : String
  authHeader : Option String
  jsonBody : Option (List (String × String))
deriving DecidableEq

/-- Raised `exception.AuthenticationError`, carrying `data.get("error")`
and `data.get("message")` from the server response. -/
structure AuthError where
  errorCode : Option String
  errorMessage : Option String
deriving DecidableEq

/-- One write to the durable cache: key, value and max-age in seconds. -/
structure CacheWrite where
  key : String
  value : String
  maxage : Nat
deriving DecidableEq

/-- Successful outcome of `_authenticate_impl`: the refresh-token cache
update (`_refresh_token_cache`, maxage `84*86400`), the memoization of
the returned bearer value (`@cache(maxage=3600, keyarg=1)`), and the
bearer value itself, which `authenticate` attaches to the headers. -/
structure AuthOk where
  refreshWrite : CacheWrite
  accessWrite : CacheWrite
  bearer : String
deriving DecidableEq

/-- Truthiness of the cached refresh token: Python `if refresh_token:`
is false for `None` and for the empty string. -/
def truthyOpt : Option String → Bool
  | none => false
  | some s => !(s = "")

/-- Embeds `BlueskyAPI._authenticate_impl`: with a truthy cached refresh
token it POSTs to `com.atproto.server.refreshSession` with the token as
bearer header and no body, otherwise to `com.atproto.server.createSession`
with `identifier`/`password` JSON and no header; a status other than 200
raises `AuthenticationError` with the server's error and message fields;
on 200 it stores the new refresh token (84-day maxage), memoizes the new
bearer value (1-hour maxage) and returns it. -/
def authenticate_impl (root username password : String)
    (refresh_token : Option String) (resp : AuthResponse) :
    AuthRequest × Except AuthError AuthOk :=
  let req : AuthRequest :=
    if truthyOpt refresh_token then
      { url := root ++ "/xrpc/" ++ "com.atproto.server.refreshSession",
        authHeader := some ("Bearer " ++ refresh_token.getD ""),
        jsonBody := none }
    else
      { url := root ++ "/xrpc/" ++ "com.atproto.server.createSession",
        authHeader := none,
        jsonBody := some [("identifier", username), ("password", password)] }
  let result : Except AuthError AuthOk :=
    if resp.status_code ≠ 200 then
      .error { errorCode := resp.error, errorMessage := resp.message }
    else
      .ok { refreshWrite := { key := username, value := resp.refreshJwt,
                              maxage := 84 * 86400 },
            accessWrite := { key := username, value := "Bearer " ++ resp.accessJwt,
                             maxage := 3600 },
            bearer := "Bearer " ++ resp.accessJwt }
  (req, result)

/-- Embeds `BlueskyAPI.authenticate`: store the bearer value produced by
`_authenticate_impl` under the `Authorization` key of the headers dict. -/
def authenticate (headers : Params) (bearer : String) : Params :=
  setParam headers "Authorization" bearer

/-- First entry of a facet's `features` array, with the keys the
normalizer tests for, in test order: `tag`, `did`, `uri`.  A `some`
field models the key being present in the JSON object. -/
structure Feature where
  tag : Option String
  did : Option String
  uri : Option String
deriving DecidableEq

/-- One entry of a post's `facets` array.  `features = none` models a
facet object without a `features` key. -/
structure Facet where
  features : Option (List Feature)
deriving DecidableEq

/-- Embeds the facet walk of `BlueskyExtractor.items` (the `"facets" in
post` branch): for each facet take `facet["features"][0]` — `none` here
models the raised `KeyError` / `IndexError` when `features` is absent or
empty — then append its `tag` to the hashtag list, else its `did` to the
mention list, else its `uri` to the uri list, else drop it. -/
def processFacets : List Facet → Option (List String × List String × List String)
  | [] => some ([], [], [])
  | fc :: rest =>
    match fc.features with
    | none => none
    | some [] => none
    | some (f :: _) =>
      match processFacets rest with
      | none => none
      | some (tags, dids, uris) =>
        match f.tag with
        | some t => some (t :: tags, dids, uris)
        | none =>
          match f.did with
          | some d => some (tags, d :: dids, uris)
          | none =>
            match f.uri with
            | some u => some (tags, dids, u :: uris)
            | none => some (tags, dids, uris)

/-- Embeds lines 48-61 of `items`: with a `facets` key present the three
lists come from the facet walk; with it absent all three are set to the
empty tuple `()`. -/
def facetLists (facets : Option (List Facet)) :
    Option (List String × List String × List String) :=
  match facets with
  | none => some ([], [], [])
  | some fs => processFacets fs

/-- First `features` entry of a facet, when it exists. -/
def headFeature (fc : Facet) : Option Feature :=
  fc.features.bind List.head?

/-- Hashtag contributed by a facet: the `tag` value of its first feature. -/
def tagOf (fc : Facet) : Option String :=
  (headFeature fc).bind Feature.tag

/-- Mention contributed by a facet: its first feature's `did` value,
only when that feature has no `tag` key. -/
def mentionOf (fc : Facet) : Option String :=
  (headFeature fc).bind fun f => if f.tag.isSome then none else f.did

/-- Linked uri contributed by a facet: its first feature's `uri` value,
only when that feature has neither a `tag` nor a `did` key. -/
def uriOf (fc : Facet) : Option String :=
  (headFeature fc).bind fun f => if f.tag.isSome || f.did.isSome then none else f.uri

/-- Blob reference of an image: `image["ref"]["$link"]` and
`image["mimeType"]`. -/
structure ImageBlob where
  link : String
  mimeType : String
deriving DecidableEq

/-- Optional `aspectRatio` object of an image entry; a `none` field
models a missing `width` or `height` key. -/
structure Aspect where
  width : Option Nat
  height : Option Nat
deriving DecidableEq

/-- One entry of the embed's `images` array. -/
structure ImageFile where
  alt : String
  aspectRatio : Option Aspect
  image : ImageBlob
deriving DecidableEq

/-- Embeds the `try`/`except KeyError` block of `items`: width and height
come from `aspectRatio` only when the object and both keys are present;
any `KeyError` in the block leaves both at zero. -/
def dimensions : Option Aspect → Nat × Nat
  | none => (0, 0)
  | some a =>
    match a.width, a.height with
    | some w, some h => (w, h)
    | _, _ => (0, 0)

/-- Per-image record emitted by `items` alongside the blob URL: the
fields the loop writes into `post` before each `Message.Url`. -/
structure MediaRecord where
  num : Nat
  description : String
  width : Nat
  height : Nat
  filename : String
  extension : String
  url : String
deriving DecidableEq

/-- Embeds the `base` string built at line 73: the fixed public blob
endpoint with the post author's durable id. -/
def blobBase (did : String) : String :=
  "https://bsky.social/xrpc/com.atproto.sync.getBlob?did=" ++ did ++ "&cid="

/-- Embeds the image loop of `items` starting from counter value `num`:
each image increments `num`, copies its alt text, takes dimensions from
`aspectRatio` (zero on a `KeyError`), uses the blob link as filename,
derives the extension as `mimeType.rpartition("/")[2]`, and yields the
URL `base + link`. -/
def mediaLoop (did : String) : Nat → List ImageFile → List MediaRecord
  | _, [] => []
  | num, f :: rest =>
    { num := num + 1,
      description := f.alt,
      width := (dimensions f.aspectRatio).1,
      height := (dimensions f.aspectRatio).2,
      filename := f.image.link,
      extension := rpartAfter (Char.ofNat 47) f.image.mimeType,
      url := blobBase did ++ f.image.link } :: mediaLoop did (num + 1) rest

/-- Media records of a post: the image loop started at `num = 0`. -/
def mediaRecords (did : String) (images : List ImageFile) : List MediaRecord :=
  mediaLoop did 0 images

/-- Parsed date value, truncated to seconds. -/
structure DateTime where
  year : Nat
  month : Nat
  day : Nat
  hour : Nat
  minute : Nat
  second : Nat
deriving DecidableEq

/-- Decimal value of a digit run; `none` when a non-digit appears. -/
def parseDigits (cs : List Char) : Option Nat :=
  cs.foldl
    (fun acc c =>
      acc.bind fun n => if c.isDigit then some (n * 10 + (c.toNat - 48)) else none)
    (some 0)

/-- Modelled from the spec: `text.parse_datetime` of `gallery_dl.text` is
not under `src/`; per the spec it parses the format
`%Y-%m-%dT%H:%M:%S` and a malformed value yields the absent-date
sentinel (`none`) non-fatally. -/
def parse_datetime (s : String) : Option DateTime :=
  match s.data with
  | [y1, y2, y3, y4, a, mo1, mo2, b, d1, d2, t, h1, h2, c, mi1, mi2, d, s1, s2] =>
    if a = Char.ofNat 45 ∧ b = Char.ofNat 45 ∧ t = Char.ofNat 84 ∧
       c = Char.ofNat 58 ∧ d = Char.ofNat 58 then
      match parseDigits [y1, y2, y3, y4], parseDigits [mo1, mo2],
            parseDigits [d1, d2], parseDigits [h1, h2],
            parseDigits [mi1, mi2], parseDigits [s1, s2] with
      | some y, some mo, some dd, some h, some mi, some se =>
        some { year := y, month := mo, day := dd, hour := h, minute := mi, second := se }
      | _, _, _, _, _, _ => none
    else none
  | _ => none

/-- Embeds line 65-66 of `items`: `post["createdAt"]` — a `KeyError`
when the key is absent — sliced to its first 19 characters and handed to
`text.parse_datetime`. -/
def postDate (createdAt : Option String) : Except String (Option DateTime) :=
  match createdAt with
  | none => .error "KeyError"
  | some s => .ok (parse_datetime (s.take 19))

theorem lookupKey_setParam (ps : Params) (k v : String) :
    lookupKey (setParam ps k v) k = some v := by
  induction ps with
  | nil => simp [setParam, lookupKey]
  | cons hd tl ih =>
    obtain ⟨k', v'⟩ := hd
    by_cases hk : k' = k
    · simp [setParam, lookupKey, hk]
    · simp [setParam, lookupKey, hk, ih]

theorem runCall_okResp {α : Type} (key : String) (p : Page α) (rs : List (Response α)) :
    runCall (okResp key p :: rs) =
      some ⟨.ok { arrays := [(key, p.items)], cursor := p.cursor }, rs, 1, 0⟩ := by
  simp [runCall, okResp]

theorem runPagination_ok_last {α : Type} (fuel : Nat) (params : Params) (key : String)
    (p : Page α) (rs : List (Response α)) (h : cursorDone p.cursor = true) :
    runPagination (fuel + 1) params key (okResp key p :: rs) =
      ⟨p.items, 1, 1, [params], .finished⟩ := by
  rcases hc : p.cursor with _ | c
  · simp [runPagination, runCall_okResp, lookupKey, hc]
  · rw [hc] at h
    simp only [cursorDone] at h
    simp [runPagination, runCall_okResp, lookupKey, hc, of_decide_eq_true h]

theorem runPagination_ok_step {α : Type} (fuel : Nat) (params : Params) (key : String)
    (p : Page α) (rs : List (Response α)) (c : String)
    (h : p.cursor = some c) (hc : c ≠ "") :
    runPagination (fuel + 1) params key (okResp key p :: rs) =
      let rest := runPagination fuel (setParam params "cursor" c) key rs
      ⟨p.items ++ rest.yielded, rest.pages + 1, 1 + rest.requests,
       params :: rest.trace, rest.outcome⟩ := by
  simp [runPagination, runCall_okResp, lookupKey, h, hc]

theorem runPagination_trace_head {α : Type} (fuel : Nat) (params : Params)
    (key : String) (rs : List (Response α)) :
    (runPagination (fuel + 1) params key rs).trace.head? = some params := by
  unfold runPagination
  repeat' split
  all_goals rfl

/-- C1: over a well-formed chain of successful pages, the pagination
engine yields every page's items in order (their concatenation), fetches
exactly one page per response, issues exactly `n` HTTP calls for `n`
pages, terminates normally exactly at the page whose cursor is absent or
empty, and passes each page's cursor as `params["cursor"]` of the next
call. -/
theorem pagination_yields_pages_in_order {α : Type} (ps : List (Page α))
    (params : Params) (key : String) (h : chainOK ps = true) :
    (runPagination ps.length params key (ps.map (okResp key))).yielded
        = (ps.map Page.items).flatten ∧
    (runPagination ps.length params key (ps.map (okResp key))).pages = ps.length ∧
    (runPagination ps.length params key (ps.map (okResp key))).requests = ps.length ∧
    (runPagination ps.length params key (ps.map (okResp key))).outcome = .finished ∧
    (runPagination ps.length params key (ps.map (okResp key))).trace.length = ps.length ∧
    ∀ i t p, (runPagination ps.length params key (ps.map (okResp key))).trace[i + 1]? = some t →
      ps[i]? = some p → lookupKey t "cursor" = p.cursor := by
  induction ps generalizing params with
  | nil => simp [chainOK] at h
  | cons p tl ih =>
    cases tl with
    | nil =>
      have hdone : cursorDone p.cursor = true := by simpa [chainOK] using h
      have hrw := runPagination_ok_last 0 params key p [] hdone
      simp only [List.map_cons, List.map_nil, List.length_cons, List.length_nil]
      rw [hrw]
      refine ⟨by simp, rfl, rfl, rfl, rfl, ?_⟩
      intro i t q ht hp
      have ht' : (List.cons params List.nil)[i + 1]? = some t := ht
      rw [List.getElem?_cons_succ, List.getElem?_nil] at ht'
      exact absurd ht' (by simp)
    | cons q tl2 =>
      have hsplit : cursorDone p.cursor = false ∧ chainOK (q :: tl2) = true := by
        simpa [chainOK] using h
      obtain ⟨hc, h2⟩ := hsplit
      rcases hcur : p.cursor with _ | c
      · rw [hcur] at hc
        simp [cursorDone] at hc
      · rw [hcur] at hc
        have hcne : c ≠ "" := by simpa [cursorDone] using hc
        have hrw := runPagination_ok_step ((q :: tl2).length) params key p
          ((q :: tl2).map (okResp key)) c hcur hcne
        obtain ⟨iy, ipg, irq, iout, itl, itr⟩ := ih (setParam params "cursor" c) h2
        simp only [List.map_cons, List.length_cons] at hrw iy ipg irq iout itl itr ⊢
        rw [hrw]
        refine ⟨?_, ?_, ?_, ?_, ?_, ?_⟩
        · show p.items ++ _ = _
          rw [iy]
          simp [List.flatten_cons]
        · show _ + 1 = _
          rw [ipg]
        · show 1 + _ = _
          rw [irq]
          omega
        · exact iout
        · show (params :: _).length = _
          rw [List.length_cons, itl]
        · intro i t pg ht hp
          have ht' : (params :: (runPagination (tl2.length + 1)
              (setParam params "cursor" c) key
              (okResp key q :: List.map (okResp key) tl2)).trace)[i + 1]? = some t := ht
          rw [List.getElem?_cons_succ] at ht'
          cases i with
          | zero =>
            have hhead := runPagination_trace_head tl2.length
              (setParam params "cursor" c) key (okResp key q :: List.map (okResp key) tl2)
            rw [List.head?_eq_getElem?] at hhead
            rw [ht'] at hhead
            obtain rfl : t = setParam params "cursor" c := Option.some.inj hhead
            obtain rfl : pg = p := by
              have hp' : (p :: q :: tl2)[0]? = some pg := hp
              rw [List.getElem?_cons_zero] at hp'
              exact (Option.some.inj hp').symm
            rw [lookupKey_setParam, hcur]
          | succ j =>
            have hp' : (q :: tl2)[j]? = some pg := by
              have hpc : (p :: q :: tl2)[j + 1]? = some pg := hp
              rwa [List.getElem?_cons_succ] at hpc
            exact itr j t pg ht' hp'

/-- Witness for C1: a concrete three-page run where only the last page
lacks a cursor yields the concatenation of the three item arrays. -/
theorem pagination_yields_pages_in_order_witness :
    chainOK (α := Nat) [⟨[1, 2], some "c1"⟩, ⟨[3], some "c2"⟩, ⟨[4, 5], none⟩] = true ∧
    (runPagination 3 [] "feed"
        (([⟨[1, 2], some "c1"⟩, ⟨[3], some "c2"⟩, ⟨[4, 5], none⟩] : List (Page Nat)).map
          (okResp "feed"))).yielded = [1, 2, 3, 4, 5] := by
  refine ⟨by decide, ?_⟩
  have h := pagination_yields_pages_in_order
    (α := Nat) [⟨[1, 2], some "c1"⟩, ⟨[3], some "c2"⟩, ⟨[4, 5], none⟩] [] "feed" (by decide)
  simpa using h.1

/-- C2: a run of 429 responses before a success makes `_call` sleep a
fixed 60 seconds per failed attempt and reissue the same call — total
sleep `60 * k` for `k` rate-limited attempts, with no retry cap and no
backoff growth — and the page is consumed exactly once: no item is
yielded for any 429 attempt and the one successful call's items are
yielded once. -/
theorem rate_limited_fixed_retry {α : Type} (rs429 : List (Response α))
    (h : ∀ r ∈ rs429, r.status_code = 429) (p : Page α) (hc : p.cursor = none)
    (key : String) (params : Params) (rs : List (Response α)) :
    runCall (rs429 ++ okResp key p :: rs) =
      some ⟨.ok { arrays := [(key, p.items)], cursor := p.cursor }, rs,
            rs429.length + 1, 60 * rs429.length⟩ ∧
    runPagination 1 params key (rs429 ++ okResp key p :: rs) =
      ⟨p.items, 1, rs429.length + 1, [params], .finished⟩ := by
  have hcall : runCall (rs429 ++ okResp key p :: rs) =
      some ⟨.ok { arrays := [(key, p.items)], cursor := p.cursor }, rs,
            rs429.length + 1, 60 * rs429.length⟩ := by
    induction rs429 with
    | nil => simp [runCall_okResp]
    | cons r rest ih =>
      have hr : r.status_code = 429 := h r (by simp)
      have ih' := ih (fun x hx => h x (List.mem_cons_of_mem r hx))
      simp [runCall, hr, ih', Nat.mul_succ]
  refine ⟨hcall, ?_⟩
  unfold runPagination
  rw [hcall]
  simp [lookupKey, hc]

/-- Witness for C2: two rate-limited attempts before a success sleep 120
seconds in total, issue three requests, and yield the page's items once. -/
theorem rate_limited_fixed_retry_witness :
    runPagination 1 [] "feed"
        ([⟨429, "Too Many Requests", ⟨[], none⟩⟩, ⟨429, "Too Many Requests", ⟨[], none⟩⟩,
          okResp "feed" (⟨[7], none⟩ : Page Nat)]) =
      ⟨[7], 1, 3, [[]], .finished⟩ ∧
    runCall ([⟨429, "Too Many Requests", ⟨[], none⟩⟩, ⟨429, "Too Many Requests", ⟨[], none⟩⟩,
          okResp "feed" (⟨[7], none⟩ : Page Nat)]) =
      some ⟨.ok { arrays := [("feed", [7])], cursor := none }, [], 3, 120⟩ := by
  have h := rate_limited_fixed_retry
    [⟨429, "Too Many Requests", ⟨[], none⟩⟩, ⟨429, "Too Many Requests", ⟨[], none⟩⟩]
    (by decide) (⟨[7], none⟩ : Page Nat) rfl "feed" [] []
  exact ⟨h.2, h.1⟩

/-- C3: a response with status ≥ 400 other than 429 makes `_call` raise
`StopExtraction` carrying the status code and the reason text, with no
retry, and the pagination run ends there: one single request is issued
no matter how many further responses the server would have had. -/
theorem api_failure_stops_extraction {α : Type} (r : Response α)
    (h4 : 400 ≤ r.status_code) (h429 : r.status_code ≠ 429)
    (rs : List (Response α)) (params : Params) (key : String) (fuel : Nat) :
    runCall (r :: rs) = some ⟨.stop r.status_code r.reason, rs, 1, 0⟩ ∧
    runPagination (fuel + 1) params key (r :: rs) =
      ⟨[], 0, 1, [params], .stopped r.status_code r.reason⟩ := by
  have hcall : runCall (r :: rs) = some ⟨.stop r.status_code r.reason, rs, 1, 0⟩ := by
    unfold runCall
    rw [if_neg (by omega), if_neg h429]
  refine ⟨hcall, ?_⟩
  unfold runPagination
  rw [hcall]

/-- Witness for C3: a 404 response stops the run at once with the status
code and reason, even though a successful page follows in the stream. -/
theorem api_failure_stops_extraction_witness :
    runPagination 5 [] "feed"
        ([⟨404, "Not Found", ⟨[], none⟩⟩, okResp "feed" (⟨[7], none⟩ : Page Nat)]) =
      ⟨[], 0, 1, [[]], .stopped 404 "Not Found"⟩ :=
  (api_failure_stops_extraction ⟨404, "Not Found", ⟨[], none⟩⟩ (by decide) (by decide)
    [okResp "feed" (⟨[7], none⟩ : Page Nat)] [] "feed" 4).2

theorem resolveMany_hit (oracle : String → String) (handle d : String)
    (m : List (String × String)) (c k : Nat)
    (hm : lookupKey m handle = some d) (hp : pyStartsWith handle "did:" = false) :
    resolveMany oracle ⟨m, c⟩ (List.replicate k handle) = (List.replicate k d, ⟨m, c⟩) := by
  induction k with
  | zero => simp [resolveMany]
  | succ k ih =>
    rw [List.replicate_succ]
    simp only [resolveMany, did_from_actor, hp, Bool.false_eq_true, if_false,
      resolve_handle, hm, ih, List.replicate_succ]

/-- C4: an actor already carrying the `did:` prefix is returned
unchanged with no state change and no network call; any other handle is
resolved over the network exactly once per process regardless of how
many times it is requested, with every request returning the resolved
durable id. -/
theorem did_resolution_memoized (oracle : String → String) :
    (∀ st actor, pyStartsWith actor "did:" = true →
      did_from_actor oracle st actor = (actor, st)) ∧
    (∀ handle n, pyStartsWith handle "did:" = false →
      resolveMany oracle ⟨[], 0⟩ (List.replicate (n + 1) handle) =
        (List.replicate (n + 1) (oracle handle), ⟨[(handle, oracle handle)], 1⟩)) := by
  constructor
  · intro st actor hp
    simp [did_from_actor, hp]
  · intro handle n hp
    rw [List.replicate_succ]
    simp only [resolveMany, did_from_actor, hp, Bool.false_eq_true, if_false,
      resolve_handle, lookupKey]
    rw [resolveMany_hit oracle handle (oracle handle) _ _ n (by simp [lookupKey]) hp]
    simp [List.replicate_succ]

/-- Witness for C4: a `did:` actor is returned unchanged with no call;
three resolutions of the same handle issue one network call in total. -/
theorem did_resolution_memoized_witness :
    did_from_actor (fun _ => "DID") ⟨[], 0⟩ "did:plc:abc" = ("did:plc:abc", ⟨[], 0⟩) ∧
    resolveMany (fun _ => "DID") ⟨[], 0⟩ (List.replicate 3 "alice") =
      (List.replicate 3 "DID", ⟨[("alice", "DID")], 1⟩) := by
  have h := did_resolution_memoized (fun _ => "DID")
  exact ⟨h.1 ⟨[], 0⟩ "did:plc:abc" (by decide), h.2 "alice" 2 (by decide)⟩

/-- C5: `_authenticate_impl` calls the refresh-session endpoint with the
cached refresh token as bearer header and no body exactly when a truthy
cached refresh token exists, and otherwise calls the create-session
endpoint with the identifier/password JSON body and no header; on a 200
response it overwrites the refresh-token cache entry keyed by the
username with an 84-day max-age, memoizes the new bearer value keyed by
the username with a 1-hour max-age, and that bearer value is what
`authenticate` stores under the outgoing Authorization header. -/
theorem authenticate_impl_request_and_caching (root username password : String)
    (rt : Option String) (resp : AuthResponse) (headers : Params) :
    (((authenticate_impl root username password rt resp).1.url =
        root ++ "/xrpc/" ++ "com.atproto.server.refreshSession" ∧
      (authenticate_impl root username password rt resp).1.authHeader =
        some ("Bearer " ++ rt.getD "") ∧
      (authenticate_impl root username password rt resp).1.jsonBody = none)
      ↔ truthyOpt rt = true) ∧
    (truthyOpt rt = false →
      (authenticate_impl root username password rt resp).1 =
        { url := root ++ "/xrpc/" ++ "com.atproto.server.createSession",
          authHeader := none,
          jsonBody := some [("identifier", username), ("password", password)] }) ∧
    (resp.status_code = 200 →
      (authenticate_impl root username password rt resp).2 =
        .ok { refreshWrite :=
                { key := username, value := resp.refreshJwt, maxage := 84 * 86400 },
              accessWrite :=
                { key := username, value := "Bearer " ++ resp.accessJwt, maxage := 3600 },
              bearer := "Bearer " ++ resp.accessJwt } ∧
      lookupKey (authenticate headers ("Bearer " ++ resp.accessJwt)) "Authorization" =
        some ("Bearer " ++ resp.accessJwt)) := by
  refine ⟨?_, ?_, ?_⟩
  · by_cases hrt : truthyOpt rt = true
    · simp [authenticate_impl, hrt]
    · simp only [Bool.not_eq_true] at hrt
      simp [authenticate_impl, hrt]
  · intro hrt
    simp [authenticate_impl, hrt]
  · intro h200
    refine ⟨?_, ?_⟩
    · simp [authenticate_impl, h200]
    · exact lookupKey_setParam headers "Authorization" ("Bearer " ++ resp.accessJwt)

/-- Witness for C5: with a cached refresh token and a 200 response, the
refresh request carries the token as bearer header, and both cache
entries are written with the advertised max-ages. -/
theorem authenticate_impl_request_and_caching_witness :
    (authenticate_impl "R" "alice" "pw" (some "REFTOK")
        ⟨200, none, none, "NEWREF", "NEWACC"⟩).1.authHeader = some "Bearer REFTOK" ∧
    (authenticate_impl "R" "alice" "pw" (some "REFTOK")
        ⟨200, none, none, "NEWREF", "NEWACC"⟩).2 =
      .ok { refreshWrite := { key := "alice", value := "NEWREF", maxage := 84 * 86400 },
            accessWrite := { key := "alice", value := "Bearer NEWACC", maxage := 3600 },
            bearer := "Bearer NEWACC" } := by
  have h := authenticate_impl_request_and_caching "R" "alice" "pw" (some "REFTOK")
    ⟨200, none, none, "NEWREF", "NEWACC"⟩ []
  refine ⟨?_, ?_⟩
  · have := (h.1.mpr (by decide)).2.1
    simpa using this
  · have := (h.2.2 rfl).1
    simpa using this

/-- C6: the authentication step raises `AuthenticationError` exactly
when the response status is not 200, the raised error carries the
server-reported error code and message, and a 200 status raises
nothing. -/
theorem auth_error_iff_nonsuccess (root username password : String)
    (rt : Option String) (resp : AuthResponse) :
    ((∃ e, (authenticate_impl root username password rt resp).2 = .error e)
      ↔ resp.status_code ≠ 200) ∧
    (resp.status_code ≠ 200 →
      (authenticate_impl root username password rt resp).2 =
        .error { errorCode := resp.error, errorMessage := resp.message }) := by
  by_cases h : resp.status_code = 200 <;> simp [authenticate_impl, h]

/-- Witness for C6: a 401 createSession response raises the error with
the server's error code and message. -/
theorem auth_error_iff_nonsuccess_witness :
    (authenticate_impl "R" "alice" "pw" none
        ⟨401, some "AuthenticationRequired", some "Invalid identifier or password",
         "", ""⟩).2 =
      .error { errorCode := some "AuthenticationRequired",
               errorMessage := some "Invalid identifier or password" } :=
  (auth_error_iff_nonsuccess "R" "alice" "pw" none
    ⟨401, some "AuthenticationRequired", some "Invalid identifier or password",
     "", ""⟩).2 (by decide)

theorem facetOf_exclusive (fc : Facet) :
    ((tagOf fc).isSome → mentionOf fc = none ∧ uriOf fc = none) ∧
    ((mentionOf fc).isSome → uriOf fc = none) := by
  cases hf : headFeature fc with
  | none => simp [tagOf, mentionOf, uriOf, hf]
  | some f =>
    cases ht : f.tag <;> cases hd : f.did <;>
      simp [tagOf, mentionOf, uriOf, hf, ht, hd]

theorem processFacets_eq (fs : List Facet)
    (h : ∀ fc ∈ fs, headFeature fc ≠ none) :
    processFacets fs =
      some (fs.filterMap tagOf, fs.filterMap mentionOf, fs.filterMap uriOf) := by
  induction fs with
  | nil => simp [processFacets]
  | cons fc rest ih =>
    have hfc := h fc (by simp)
    have hrest := ih (fun x hx => h x (List.mem_cons_of_mem fc hx))
    rcases hfeat : fc.features with _ | fl
    · rw [headFeature, hfeat] at hfc
      simp at hfc
    · cases fl with
      | nil =>
        rw [headFeature, hfeat] at hfc
        simp at hfc
      | cons f l =>
        have hhead : headFeature fc = some f := by simp [headFeature, hfeat]
        simp only [processFacets, hfeat, hrest, List.filterMap_cons, tagOf,
          mentionOf, uriOf, hhead, Option.some_bind]
        cases ht : f.tag with
        | some t => simp [ht]
        | none =>
          cases hd : f.did with
          | some d => simp [ht, hd]
          | none =>
            cases hu : f.uri with
            | some u => simp [ht, hd, hu]
            | none => simp [ht, hd, hu]

/-- C7: when every facet carries at least one features entry, the facet
walk classifies each facet by its first features entry only — into
hashtags on a `tag` key, else mentions on a `did` key, else uris on a
`uri` key, else dropped — each facet contributing to at most one of the
three lists, and an absent facets key leaves all three lists present
and empty. -/
theorem facets_classified (fs : List Facet)
    (h : ∀ fc ∈ fs, headFeature fc ≠ none) :
    facetLists (some fs) =
      some (fs.filterMap tagOf, fs.filterMap mentionOf, fs.filterMap uriOf) ∧
    (∀ fc : Facet, ((tagOf fc).isSome → mentionOf fc = none ∧ uriOf fc = none) ∧
      ((mentionOf fc).isSome → uriOf fc = none)) ∧
    facetLists none = some ([], [], []) :=
  ⟨processFacets_eq fs h, fun fc => facetOf_exclusive fc, rfl⟩

/-- Witness for C7: the spec's example record with one tag facet, one
mention facet and one link facet. -/
theorem facets_classified_witness :
    facetLists (some [⟨some [⟨some "x", none, none⟩]⟩, ⟨some [⟨none, some "y", none⟩]⟩,
        ⟨some [⟨none, none, some "z"⟩]⟩]) = some (["x"], ["y"], ["z"]) := by
  rw [(facets_classified [⟨some [⟨some "x", none, none⟩]⟩, ⟨some [⟨none, some "y", none⟩]⟩,
        ⟨some [⟨none, none, some "z"⟩]⟩] (by decide)).1]
  decide

/-- C10: the facet walk requires every facet to carry a non-empty
features array: a single facet with an absent or empty features list
makes normalization fail with the raised key/index error instead of
skipping that facet, and no such failure happens when every facet has
at least one features entry. -/
theorem facets_require_nonempty_features (fs : List Facet) :
    ((∃ fc ∈ fs, headFeature fc = none) → processFacets fs = none) ∧
    ((∀ fc ∈ fs, headFeature fc ≠ none) → (processFacets fs).isSome = true) := by
  constructor
  · intro h
    induction fs with
    | nil => simp at h
    | cons fc rest ih =>
      rcases h with ⟨x, hx, hhead⟩
      rcases List.mem_cons.mp hx with rfl | hxr
      · rcases hfeat : x.features with _ | fl
        · simp [processFacets, hfeat]
        · cases fl with
          | nil => simp [processFacets, hfeat]
          | cons f l =>
            rw [headFeature, hfeat] at hhead
            simp at hhead
      · have hr := ih ⟨x, hxr, hhead⟩
        rcases hfeat : fc.features with _ | fl
        · simp [processFacets, hfeat]
        · cases fl with
          | nil => simp [processFacets, hfeat]
          | cons f l => simp [processFacets, hfeat, hr]
  · intro h
    rw [processFacets_eq fs h]
    rfl

/-- Witness for C10: a post whose second facet has an empty features
array makes the whole walk fail. -/
theorem facets_require_nonempty_features_witness :
    processFacets [⟨some [⟨some "x", none, none⟩]⟩, ⟨some []⟩] = none :=
  (facets_require_nonempty_features [⟨some [⟨some "x", none, none⟩]⟩, ⟨some []⟩]).1
    (by decide)

theorem afterLastAux_append (sep : Char) (xs ys : List Char)
    (h : ys.contains sep = false) : afterLastAux sep (xs ++ sep :: ys) = ys := by
  induction xs with
  | nil =>
    show afterLastAux sep (sep :: ys) = ys
    simp only [afterLastAux]
    rw [h]
    simp
  | cons x xs ih =>
    have hc : (xs ++ sep :: ys).contains sep = true :=
      List.elem_eq_true_of_mem (by simp)
    simp [afterLastAux, hc, ih]

theorem rpartAfter_last_component (sep : Char) (a b : String)
    (h : b.data.contains sep = false) :
    rpartAfter sep (a ++ String.mk [sep] ++ b) = b := by
  obtain ⟨bs⟩ := b
  simp only [rpartAfter, String.data_append]
  rw [List.append_assoc]
  exact congrArg String.mk (afterLastAux_append sep a.data bs h)

theorem mediaLoop_length (did : String) (images : List ImageFile) (n : Nat) :
    (mediaLoop did n images).length = images.length := by
  induction images generalizing n with
  | nil => rfl
  | cons f rest ih => simp [mediaLoop, ih (n + 1)]

theorem mediaLoop_nums (did : String) (images : List ImageFile) (n : Nat) :
    (mediaLoop did n images).map MediaRecord.num = List.range' (n + 1) images.length := by
  induction images generalizing n with
  | nil => rfl
  | cons f rest ih =>
    rw [List.length_cons, List.range'_succ]
    simp [mediaLoop, ih (n + 1), Nat.add_assoc, Nat.add_comm, Nat.add_left_comm]

theorem mediaLoop_getElem (did : String) (images : List ImageFile) (n i : Nat) :
    (mediaLoop did n images)[i]? = (images[i]?).map fun f =>
      { num := n + i + 1,
        description := f.alt,
        width := (dimensions f.aspectRatio).1,
        height := (dimensions f.aspectRatio).2,
        filename := f.image.link,
        extension := rpartAfter (Char.ofNat 47) f.image.mimeType,
        url := blobBase did ++ f.image.link } := by
  induction images generalizing n i with
  | nil => simp [mediaLoop]
  | cons f rest ih =>
    cases i with
    | zero => simp [mediaLoop]
    | succ j =>
      simp only [mediaLoop, List.getElem?_cons_succ, ih (n + 1) j]
      have harith : n + 1 + j = n + (j + 1) := by omega
      rw [harith]

/-- C8: a post with located images yields exactly one media record per
image, in input order, with sequence numbers counting 1..n; each record
takes the image's alt text as description, its width and height from
`aspectRatio` when present and zero otherwise, its extension from the
text after the last slash of the mime type, and its fetch URL is
exactly the fixed `bsky.social` blob endpoint with the author's durable
id and the image's blob link. -/
theorem media_records_enumeration (did : String) (images : List ImageFile) :
    (mediaRecords did images).length = images.length ∧
    (mediaRecords did images).map MediaRecord.num = List.range' 1 images.length ∧
    ∀ (i : Nat) (f : ImageFile), images[i]? = some f →
      (mediaRecords did images)[i]? = some
        { num := i + 1,
          description := f.alt,
          width := (dimensions f.aspectRatio).1,
          height := (dimensions f.aspectRatio).2,
          filename := f.image.link,
          extension := rpartAfter (Char.ofNat 47) f.image.mimeType,
          url := "https://bsky.social/xrpc/com.atproto.sync.getBlob?did=" ++ did
                   ++ "&cid=" ++ f.image.link } := by
  refine ⟨mediaLoop_length did images 0, mediaLoop_nums did images 0, ?_⟩
  intro i f hf
  rw [mediaRecords, mediaLoop_getElem did images 0 i, hf]
  simp [blobBase, Nat.zero_add, String.append_assoc]

/-- Witness for C8: two images produce two records numbered 1 and 2,
with alt text, dimensions, mime-derived extension and the fixed blob
URL. -/
theorem media_records_enumeration_witness :
    (mediaRecords "did:plc:a"
        [⟨"first", some ⟨some 10, some 20⟩, ⟨"L1", "image/png"⟩⟩,
         ⟨"second", none, ⟨"L2", "image/jpeg"⟩⟩])[1]? = some
      { num := 2, description := "second", width := 0, height := 0,
        filename := "L2", extension := "jpeg",
        url := "https://bsky.social/xrpc/com.atproto.sync.getBlob?did=did:plc:a&cid=L2" } := by
  have h := (media_records_enumeration "did:plc:a"
    [⟨"first", some ⟨some 10, some 20⟩, ⟨"L1", "image/png"⟩⟩,
     ⟨"second", none, ⟨"L2", "image/jpeg"⟩⟩]).2.2 1
    ⟨"second", none, ⟨"L2", "image/jpeg"⟩⟩ (by decide)
  rw [h]
  decide

/-- C9 counterexample: a raw post without a `createdAt` key makes the
date step raise a `KeyError`; no sentinel result is produced, refuting
the claimed non-fatal handling of a missing `createdAt`. -/
theorem createdAt_missing_raises : ¬ ∃ d, postDate none = .ok d := by
  rintro ⟨d, hd⟩
  simp [postDate] at hd

/-- C9 (amended): with `createdAt` present, normalization hands its
first 19 characters to the `YYYY-MM-DDTHH:MM:SS` parser and never
raises — a malformed value yields the absent-date sentinel — but with
the `createdAt` key missing the lookup raises a `KeyError` instead of
producing a sentinel. -/
theorem createdAt_parse_amended (s : String) :
    postDate (some s) = .ok (parse_datetime (s.take 19)) ∧
    parse_datetime "2024-01-02T03:04:05" =
      some { year := 2024, month := 1, day := 2, hour := 3, minute := 4, second := 5 } ∧
    parse_datetime "malformed createdAt" = none ∧
    postDate none = .error "KeyError" :=
  ⟨rfl, by decide, by decide, rfl⟩

/-- Witness for C9: a timestamp with fractional seconds and timezone
suffix is truncated to 19 characters and parsed non-fatally. -/
theorem createdAt_parse_amended_witness :
    postDate (some "2024-01-02T03:04:05.123Z") =
      .ok (some { year := 2024, month := 1, day := 2, hour := 3, minute := 4, second := 5 }) := by
  rw [(createdAt_parse_amended "2024-01-02T03:04:05.123Z").1]
  rfl

end Bluesky
